import Mathlib

/-!
# Verification of the http-router radix tree

A shallow embedding of the Go package `router` (files `route.go`,
`router.go` and their earlier revisions).  Strings are modelled as
`List Char`; the byte-indexed child array `static [256]*Route` is
modelled as an association list sorted by key (one entry per first
byte, iterated in index order exactly like the Go array); in-place
pointer mutation is modelled by rebuilding the tree along the visited
path.  Handler chains (`[]HandleFunc`) are modelled as lists of opaque
handler identifiers (`List Nat`): the router never inspects a handler,
it only stores, replaces and runs them in order.

The recursive tree walks are embedded as fuel-indexed structural
recursions: every walker takes a `fuel : Nat` consumed once per call,
and the wrappers supply a fuel amount that is amply sufficient (the
concrete evaluations below certify this by never returning `fuelout`).
Outcomes distinguish Go panics (`crash`: nil dereference or
out-of-range index) from ordinary results.
-/

namespace HttpRouter

/-- `diffString` from `route.go`: returns the differing suffixes of the
two strings, i.e. both inputs with their longest common prefix
removed. -/
def diffString : List Char → List Char → List Char × List Char
  | [], s2 => ([], s2)
  | s1, [] => (s1, [])
  | a :: s1, b :: s2 =>
    if a = b then diffString s1 s2 else (a :: s1, b :: s2)

/-- When both components of `diffString` are nonempty they differ at
their first character (the Go loop stopped at a mismatch). -/
theorem diffString_head_ne (s1 s2 d1 d2 : List Char) (c1 c2 : Char)
    (h : diffString s1 s2 = (c1 :: d1, c2 :: d2)) : c1 ≠ c2 := by
  induction s1 generalizing s2 with
  | nil => simp [diffString] at h
  | cons a s1 ih =>
    cases s2 with
    | nil => simp [diffString] at h
    | cons b s2 =>
      by_cases hab : a = b
      · subst hab
        rw [diffString, if_pos rfl] at h
        exact ih s2 h
      · rw [diffString, if_neg hab] at h
        obtain ⟨h1, h2⟩ := Prod.mk.injEq .. ▸ h
        cases h1; cases h2
        exact hab

/-! ## `path.Clean` (Go standard library `path` package)

The router canonicalizes each pattern with `path.Clean` before
splitting it.  The `lazybuf` write buffer is modelled as the list of
characters written so far plus a write position `w`; `w` can move
backwards (for `..`) and the characters beyond `w` stay readable until
the next write, exactly as in the Go buffer. -/

/-- The `lazybuf` of Go's `path.Clean`: characters written (positions
`0..`) and the current write position. -/
structure Lazybuf where
  buf : List Char
  w : Nat

/-- `lazybuf.append`: write `c` at position `w`, advance `w`. -/
def Lazybuf.append (b : Lazybuf) (c : Char) : Lazybuf :=
  { buf := b.buf.take b.w ++ [c], w := b.w + 1 }

/-- `lazybuf.string`: the first `w` written characters. -/
def Lazybuf.out (b : Lazybuf) : List Char :=
  b.buf.take b.w

/-- The inner backtracking loop of the `..` case of `path.Clean`:
`for out.w > dotdot && out.index(out.w) != '/' { out.w-- }` (entered
after an initial `out.w--`; the argument is the current `out.w`). -/
def cleanBack (buf : List Char) (dotdot : Nat) : Nat → Nat
  | 0 => 0
  | w + 1 =>
    if w + 1 > dotdot ∧ buf.getD (w + 1) ' ' ≠ '/' then
      cleanBack buf dotdot w
    else w + 1

/-- The inner copy loop of the default case of `path.Clean`:
`for ; r < n && path[r] != '/'; r++ { out.append(path[r]) }`. -/
def cleanCopy (p : List Char) (n : Nat) (r : Nat) (out : Lazybuf) :
    Nat × Lazybuf :=
  if h : r < n ∧ p.getD r ' ' ≠ '/' then
    cleanCopy p n (r + 1) (out.append (p.getD r ' '))
  else (r, out)
  termination_by n - r
  decreasing_by omega

/-- `cleanCopy` advances `r` when it runs at all, so `path.Clean`'s
main loop terminates. -/
theorem cleanCopy_gt (p : List Char) (n r : Nat) (out : Lazybuf)
    (h : r < n ∧ p.getD r ' ' ≠ '/') : r < (cleanCopy p n r out).1 := by
  rw [cleanCopy, dif_pos h]
  by_cases h2 : r + 1 < n ∧ p.getD (r + 1) ' ' ≠ '/'
  · have := cleanCopy_gt p n (r + 1) (out.append (p.getD r ' ')) h2
    omega
  · rw [cleanCopy, dif_neg h2]
    omega
  termination_by n - r
  decreasing_by omega

/-- Measure form of `cleanCopy_gt`, used by `cleanLoop`'s termination
proof. -/
theorem cleanCopy_sub (p : List Char) (n r : Nat) (out : Lazybuf)
    (h : r < n ∧ p.getD r ' ' ≠ '/') :
    n - (cleanCopy p n r out).1 < n - r := by
  have := cleanCopy_gt p n r out h
  omega

/-- The main loop of Go `path.Clean`. -/
def cleanLoop (p : List Char) (n : Nat) (rooted : Bool) (r dotdot : Nat)
    (out : Lazybuf) : Lazybuf :=
  if hr : r < n then
    if p.getD r ' ' = '/' then
      cleanLoop p n rooted (r + 1) dotdot out
    else if p.getD r ' ' = '.' ∧ (r + 1 = n ∨ p.getD (r + 1) ' ' = '/') then
      cleanLoop p n rooted (r + 1) dotdot out
    else if p.getD r ' ' = '.' ∧ p.getD (r + 1) ' ' = '.' ∧
        (r + 2 = n ∨ p.getD (r + 2) ' ' = '/') then
      if out.w > dotdot then
        cleanLoop p n rooted (r + 2) dotdot
          { out with w := cleanBack out.buf dotdot (out.w - 1) }
      else if rooted = false then
        let out1 := if out.w > 0 then out.append '/' else out
        let out2 := (out1.append '.').append '.'
        cleanLoop p n rooted (r + 2) out2.w out2
      else
        cleanLoop p n rooted (r + 2) dotdot out
    else
      let out1 :=
        if (rooted = true ∧ out.w ≠ 1) ∨ (rooted = false ∧ out.w ≠ 0) then
          out.append '/'
        else out
      cleanLoop p n rooted (cleanCopy p n r out1).1 dotdot
        (cleanCopy p n r out1).2
  else out
  termination_by n - r
  decreasing_by
  all_goals first
    | omega
    | exact cleanCopy_sub p n r _ (by constructor <;> simp_all)

/-- Go `path.Clean`. -/
def cleanPath (p : List Char) : List Char :=
  if p = [] then ['.']
  else
    let rooted := p.headD ' ' = '/'
    let n := p.length
    let out :=
      if rooted then
        cleanLoop p n true 1 1 (Lazybuf.append ⟨[], 0⟩ '/')
      else
        cleanLoop p n false 0 0 ⟨[], 0⟩
    if out.w = 0 then ['.'] else out.out

unseal cleanCopy cleanLoop

example : cleanPath "/a//b/./c/../d/".data = "/a/b/d".data := by decide
example : cleanPath "".data = ".".data := by decide
example : cleanPath "/3/:/5/:/*".data = "/3/:/5/:/*".data := by decide
example : cleanPath "a/b/c/:/*/a".data = "a/b/c/:/*/a".data := by decide
example : cleanPath "/:/a".data = "/:/a".data := by decide
example : cleanPath "..".data = "..".data := by decide

/-! ## `splitRoute` (`route.go` lines 30-74)

Splits a cleaned pattern into tokens: static runs, `":"` and `"*"`.
Go indexes `part[i][0]`, which would panic on an empty segment
(`path.Clean` never produces one); the panic is modelled by `none`. -/

/-- The loop body of `splitRoute`: `parts` are the `/`-separated
segments, `acc` the emitted tokens, `static` the pending static run
builder, `isStatic` the flag of the same name. -/
def splitLoop : List (List Char) → List (List Char) → List Char → Bool →
    Option (List (List Char))
  | [], acc, static, _ =>
    some (if static = [] then acc else acc ++ [static])
  | part :: rest, acc, static, isStatic =>
    match part with
    | [] => none
    | c :: _ =>
      if c = ':' ∨ c = '*' then
        let static1 := if isStatic then static ++ ['/'] else static
        let acc1 := if static1 = [] then acc else acc ++ [static1]
        splitLoop rest (acc1 ++ [[c]]) [] false
      else
        let static1 :=
          if isStatic then static ++ ['/'] ++ part else static ++ part
        splitLoop rest acc static1 true

/-- `splitRoute` from `route.go`: clean the pattern, emit `["/"]` for
the empty/root path, otherwise strip one leading `/`, split on `/` and
run the token loop. -/
def splitRoute (p : List Char) : Option (List (List Char)) :=
  let q := cleanPath p
  if q = [] ∨ q = ['/'] then some [['/']]
  else
    let q1 := match q with
      | '/' :: rest => rest
      | _ => q
    splitLoop (q1.splitOn '/') [] [] true

example : splitRoute "a/b/c/:/*/a".data =
    some ["/a/b/c/".data, ":".data, "*".data, "a".data] := by decide
example : splitRoute ":/a/b/*123/".data =
    some ["/".data, ":".data, "a/b/".data, "*".data] := by decide
example : splitRoute "/3/:/5/:/*".data =
    some ["/3/".data, ":".data, "5/".data, ":".data, "*".data] := by decide
example : splitRoute "/".data = some ["/".data] := by decide
example : splitRoute "/users/:/status".data =
    some ["/users/".data, ":".data, "status".data] := by decide

/-! ## The route tree node (`Route` in `route.go`)

Fields, in source order: `Handle` (the handler chain, modelled as a
list of handler identifiers), `path` (full path from the root, used
only for error messages), `name` (the label of this node), `static`
(the 256-slot child array, modelled as an association list sorted by
key: one slot per first byte, iterated in byte order like the Go
array) and `param` (the at-most-one parameter/catch-all child).  The
Go `parent` back-pointer is not stored: removal rebuilds the tree
along the visited path, so the parent is the node the recursion
descended from. -/

inductive Route : Type where
  | mk (Handle : List Nat) (path name : List Char)
      (static : List (Char × Route)) (param : Option Route)

/-- The handler chain of a node. -/
def Route.Handle : Route → List Nat
  | .mk h _ _ _ _ => h

/-- The full path of a node (error messages only). -/
def Route.path : Route → List Char
  | .mk _ p _ _ _ => p

/-- The label of a node. -/
def Route.name : Route → List Char
  | .mk _ _ n _ _ => n

/-- The static child table of a node. -/
def Route.static : Route → List (Char × Route)
  | .mk _ _ _ s _ => s

/-- The parameter/catch-all child of a node. -/
def Route.param : Route → Option Route
  | .mk _ _ _ _ q => q

/-- A fresh zero Route (`new(Route)` / the reset root). -/
def emptyRoute : Route := .mk [] [] [] [] none

/-- `r.static[c]` of the Go array. -/
def tblGet : List (Char × Route) → Char → Option Route
  | [], _ => none
  | (c', t) :: rest, c => if c = c' then some t else tblGet rest c

/-- `r.static[c] = t` of the Go array; keeps the list sorted by key so
that iteration order matches the array's index order. -/
def tblSet : List (Char × Route) → Char → Route → List (Char × Route)
  | [], c, t => [(c, t)]
  | (c', t') :: rest, c, t =>
    if c = c' then (c, t) :: rest
    else if c < c' then (c, t) :: (c', t') :: rest
    else (c', t') :: tblSet rest c t

/-- `r.static[c] = nil` of the Go array. -/
def tblDel : List (Char × Route) → Char → List (Char × Route)
  | [], _ => []
  | (c', t') :: rest, c =>
    if c = c' then rest else (c', t') :: tblDel rest c

/-! ## Outcome types

`crash` marks a Go panic (nil dereference / index out of range);
`fuelout` is an artifact of the fuel-indexed embedding and never
occurs for the fuel amounts the wrappers pass. -/

/-- Outcome of `Route.add` / `Route.remove`: the updated tree and Go's
boolean result. -/
inductive TRes : Type where
  | out (t : Route) (ok : Bool)
  | crash
  | fuelout

/-- Outcome of `Route.get`: Go's nil/non-nil node. -/
inductive GRes : Type where
  | out (r : Option Route)
  | crash
  | fuelout

/-- Outcome of `Route.match`: the context's `Param` slice and the
resulting node. -/
inductive MRes : Type where
  | out (prm : List (List Char)) (res : Option Route)
  | crash
  | fuelout

/-! ## Insertion (`Route.add`, part_004 lines 92-249)

Go mutates the tree in place and moves a `route` cursor from token to
token; each function here takes the remaining tokens `ts` and the
handler chain `hs`, continues the walk where the Go function would
have returned a node for the loop to continue at, and rebuilds the
tree on the way out.  An error leaves the tree as mutated so far and
reports `false`, exactly as Go returns an error while keeping its
in-place mutations.  When the tokens run out, the final node's
`Handle` is replaced by `hs` exactly as the callers
(`MethodRouter.add`, `PathRouter.Add`) do with
`route.Handle = handleFunc`. -/

mutual

/-- The token loop of `Route.add` (part_004 lines 105-115), fused with
the callers' handler attachment at the end of the walk. -/
def addLoopF : Nat → Route → List (List Char) → List Nat → TRes
  | 0, _, _, _ => .fuelout
  | fuel + 1, r, toks, hs =>
    match toks with
    | [] => .out ⟨hs, r.path, r.name, r.static, r.param⟩ true
    | tok :: ts =>
      if tok = [':'] ∨ tok = ['*'] then addSubParamF fuel r tok ts hs
      else addStaticF fuel r tok ts hs

/-- `Route.addSubParam` (part_004 lines 121-148): add or reuse the
parameter/catch-all child, then continue with the remaining tokens. -/
def addSubParamF : Nat → Route → List Char → List (List Char) →
    List Nat → TRes
  | 0, _, _, _, _ => .fuelout
  | fuel + 1, r, tok, ts, hs =>
    if r.name = ['*'] then .out r false
    else
      match r.param with
      | some p =>
        if p.name ≠ tok then .out r false
        else
          match addLoopF fuel p ts hs with
          | .out p2 ok => .out ⟨r.Handle, r.path, r.name, r.static, some p2⟩ ok
          | e => e
      | none =>
        match r.static with
        | _ :: _ => .out r false
        | [] =>
          let subPath :=
            if r.name.headD ' ' = '*' ∨ r.name.headD ' ' = ':' then
              r.path ++ ['/'] ++ tok
            else r.path ++ tok
          match addLoopF fuel ⟨[], subPath, tok, [], none⟩ ts hs with
          | .out p2 ok => .out ⟨r.Handle, r.path, r.name, r.static, some p2⟩ ok
          | e => e

/-- `Route.addStatic` (part_004 lines 180-249): match, split or
descend for one static token, then continue with the remaining tokens
at the node Go would have returned.  In cases 2 and 4 Go calls
`addSubStatic` on the freshly cleared node; its parameter-child check
and (for case 2) its slot lookup cannot fire there, so those calls
appear inlined with the live checks kept: the shortened-label `"*"`
comparison, and in case 4 the slot lookup, whose hit branch is
unreachable because the two `diffString` suffixes differ at their
first character (`diffString_head_ne`). -/
def addStaticF : Nat → Route → List Char → List (List Char) →
    List Nat → TRes
  | 0, _, _, _, _ => .fuelout
  | fuel + 1, r, name, ts, hs =>
    if r.name = ['*'] then .out r false
    else if r.name = name then addLoopF fuel r ts hs
    else if r.name.headD ' ' = ':' then addSubStaticF fuel r name ts hs
    else
      let d := diffString r.name name
      let shortPath := r.path.take (r.path.length - d.1.length)
      let shortName := r.name.take (r.name.length - d.1.length)
      if d.2 = [] then
        -- case 2: `name` is a proper prefix of the label: shorten `r`,
        -- move its data onto a child labelled `d.1`, continue at `r`.
        if shortName = ['*'] then .out ⟨[], shortPath, shortName, [], none⟩ false
        else
          let subPath :=
            if shortName = [':'] then shortPath ++ ['/'] ++ d.1
            else shortPath ++ d.1
          let sub : Route := ⟨r.Handle, subPath, d.1, r.static, r.param⟩
          addLoopF fuel ⟨[], shortPath, shortName, [(d.1.headD ' ', sub)], none⟩
            ts hs
      else if d.1 = [] then
        -- case 3: the label is a proper prefix of `name`.
        addSubStaticF fuel r d.2 ts hs
      else
        -- case 4: proper divergence: shorten `r`, move its data onto a
        -- child labelled `d.1`, then add a second child labelled `d.2`.
        if shortName = ['*'] then .out ⟨[], shortPath, shortName, [], none⟩ false
        else
          let subPath :=
            if shortName = [':'] then shortPath ++ ['/'] ++ d.1
            else shortPath ++ d.1
          let sub : Route := ⟨r.Handle, subPath, d.1, r.static, r.param⟩
          let rShort : Route :=
            ⟨[], shortPath, shortName, [(d.1.headD ' ', sub)], none⟩
          match tblGet rShort.static (d.2.headD ' ') with
          | some _ => .out rShort false  -- unreachable, `diffString_head_ne`
          | none =>
            let sub2Path :=
              if shortName = [':'] then shortPath ++ ['/'] ++ d.2
              else shortPath ++ d.2
            match addLoopF fuel ⟨[], sub2Path, d.2, [], none⟩ ts hs with
            | .out p2 ok =>
              .out ⟨rShort.Handle, rShort.path, rShort.name,
                tblSet rShort.static (d.2.headD ' ') p2, rShort.param⟩ ok
            | e => e

/-- `Route.addSubStatic` (part_004 lines 152-177): place a static
child (recursing into an existing child whose slot matches), then
continue with the remaining tokens. -/
def addSubStaticF : Nat → Route → List Char → List (List Char) →
    List Nat → TRes
  | 0, _, _, _, _ => .fuelout
  | fuel + 1, r, name, ts, hs =>
    if r.name = ['*'] then .out r false
    else
      match r.param with
      | some _ => .out r false
      | none =>
        match tblGet r.static (name.headD ' ') with
        | some child =>
          match addStaticF fuel child name ts hs with
          | .out c2 ok =>
            .out ⟨r.Handle, r.path, r.name,
              tblSet r.static (name.headD ' ') c2, r.param⟩ ok
          | e => e
        | none =>
          let subPath :=
            if r.name = [':'] then r.path ++ ['/'] ++ name
            else r.path ++ name
          match addLoopF fuel ⟨[], subPath, name, [], none⟩ ts hs with
          | .out c2 ok =>
            .out ⟨r.Handle, r.path, r.name,
              tblSet r.static (name.headD ' ') c2, r.param⟩ ok
          | e => e

end

/-- Fuel amply covering one walk.  Every walker call either consumes
part of the query (a token, or at least one byte of label/path
material — labels of nodes reachable through the API are nonempty) or
terminates, so a small multiple of the query length bounds the number
of calls; the `_build` and claim theorems certify sufficiency by
evaluating to a non-`fuelout` outcome.  (On degenerate trees with
empty labels the Go loops themselves fail to progress; `fuelout`
corresponds to that divergence.) -/
def walkFuel (p : List Char) : Nat :=
  4 * p.length + 32

/-- `Route.add` (part_004 lines 93-117) combined with the handler
attachment of its callers (`route.Handle = handleFunc`).  Returns the
updated tree with Go's success/error outcome; `crash` models a panic
inside `splitRoute` (unreachable through `path.Clean`). -/
def Route.add (r : Route) (p : List Char) (hs : List Nat) : TRes :=
  match splitRoute p with
  | none => .crash
  | some [] => .crash  -- unreachable: splitRoute yields at least one token
  | some (t0 :: rest) =>
    if r.name = [] then
      addLoopF (walkFuel p) ⟨r.Handle, t0, t0, r.static, r.param⟩ rest hs
    else
      addLoopF (walkFuel p) r (t0 :: rest) hs

/-! ## Exact lookup (`Route.get`, part_004 lines 314-355) -/

mutual

/-- The static descent loop of `Route.get` (lines 323-332 for the
first token, lines 343-352 for later ones): consume the node label as
a prefix of the pending token text, descending into the static slot of
the next byte. -/
def getWalkF : Nat → Option Route → List Char → List (List Char) → GRes
  | 0, _, _, _ => .fuelout
  | fuel + 1, o, name, rest =>
    match o with
    | none => .out none
    | some route =>
      if route.name.length > name.length then .out none
      else if name.take route.name.length ≠ route.name then .out none
      else
        let name1 := name.drop route.name.length
        if name1 = [] then getNextF fuel route rest
        else getWalkF fuel (tblGet route.static (name1.headD ' ')) name1 rest

/-- The token loop of `Route.get` (lines 335-353): a `:`/`*` token
must equal the parameter child's label; a static token restarts the
descent loop.  Go indexes `name[0]`, a panic on an empty token (never
produced by `splitRoute`). -/
def getNextF : Nat → Route → List (List Char) → GRes
  | 0, _, _ => .fuelout
  | fuel + 1, route, rest =>
    match rest with
    | [] => .out (some route)
    | tok :: rest1 =>
      match tok with
      | [] => .crash
      | c :: _ =>
        if c = '*' ∨ c = ':' then
          match route.param with
          | none => .out none
          | some p => if p.name ≠ tok then .out none else getNextF fuel p rest1
        else getWalkF fuel (tblGet route.static c) tok rest1

end

/-- `Route.get` (part_004 lines 314-355): exact lookup of a registered
pattern. -/
def Route.get (r : Route) (p : List Char) : GRes :=
  match splitRoute p with
  | none => .crash
  | some [] => .crash  -- unreachable
  | some (t0 :: rest) => getWalkF (walkFuel p) (some r) t0 rest

/-! ## Removal (`Route.remove`, part_004 lines 252-311)

Go finds the target with `get`, then climbs `parent` pointers,
detaching one node per iteration.  The embedding walks down with the
`get` logic and propagates the climb back up the recursion: `stop t`
replaces the visited child's subtree and ends the climb, `cont d`
reports that the visited child `d` was detached and the climb
continues at the caller, `crash` models the nil dereference in the
merge block. -/

/-- Result of removal inside a subtree. -/
inductive RemRes : Type where
  | notfound
  | stop (t : Route)
  | cont (d : Route)
  | crash
  | fuelout

/-- Lines 274-307 of part_004: the climb step after child `d` was
detached from `r1` (already removed from its slot).  Stops when the
parent keeps handlers or at least two static children survive.  The
merge block reads `route.static[static[0]]` where `route` is the
DETACHED child `d`, not the parent: a nil dereference (`crash`) unless
`d` happens to own a child under the same first byte, in which case
the merge mutates only the detached node — no effect on the live tree
— and the climb continues. -/
def afterDetach (r1 d : Route) : RemRes :=
  if r1.Handle ≠ [] then .stop r1
  else if r1.name ≠ [':'] ∧ r1.name ≠ ['*'] then
    match r1.static with
    | [] => .cont r1
    | [(k, _)] =>
      match tblGet d.static k with
      | none => .crash
      | some _ => .cont r1
    | _ => .stop r1
  else .cont r1

/-- Lines 267-273 of part_004: detach `d` from `r` by `d.name[0]`
(parameter slot for `:`/`*`, static slot otherwise), then run the
climb step.  Go would panic on an empty label. -/
def remDetach (r d : Route) : RemRes :=
  match d.name with
  | [] => .crash
  | c :: _ =>
    if c = ':' ∨ c = '*' then
      afterDetach ⟨r.Handle, r.path, r.name, r.static, none⟩ d
    else
      afterDetach ⟨r.Handle, r.path, r.name, tblDel r.static c, r.param⟩ d

mutual

/-- The static descent of the embedded removal (same walk as
`getWalkF`), propagating the climb results back up. -/
def remWalkF : Nat → Option Route → List Char → List (List Char) → RemRes
  | 0, _, _, _ => .fuelout
  | fuel + 1, o, name, rest =>
    match o with
    | none => .notfound
    | some route =>
      if route.name.length > name.length then .notfound
      else if name.take route.name.length ≠ route.name then .notfound
      else
        let name1 := name.drop route.name.length
        if name1 = [] then remNextF fuel route rest
        else
          match remWalkF fuel (tblGet route.static (name1.headD ' '))
              name1 rest with
          | .stop t =>
            .stop ⟨route.Handle, route.path, route.name,
              tblSet route.static (name1.headD ' ') t, route.param⟩
          | .cont d => remDetach route d
          | e => e

/-- The token loop of the embedded removal (same walk as `getNextF`);
an exhausted token list marks the target: it is reported detached to
the caller (`cont`), which performs lines 267-307. -/
def remNextF : Nat → Route → List (List Char) → RemRes
  | 0, _, _ => .fuelout
  | fuel + 1, route, rest =>
    match rest with
    | [] => .cont route
    | tok :: rest1 =>
      match tok with
      | [] => .crash  -- unreachable: splitRoute tokens are nonempty
      | c :: _ =>
        if c = '*' ∨ c = ':' then
          match route.param with
          | none => .notfound
          | some p =>
            if p.name ≠ tok then .notfound
            else
              match remNextF fuel p rest1 with
              | .stop t =>
                .stop ⟨route.Handle, route.path, route.name,
                  route.static, some t⟩
              | .cont d => remDetach route d
              | e => e
        else
          match remWalkF fuel (tblGet route.static c) tok rest1 with
          | .stop t =>
            .stop ⟨route.Handle, route.path, route.name,
              tblSet route.static c t, route.param⟩
          | .cont d => remDetach route d
          | e => e

end

/-- `Route.remove` (part_004 lines 252-311).  Returns the updated tree
and Go's boolean; `crash` marks the nil-dereference panic of the merge
block.  A climb that reaches the root resets it to the zero value
(lines 259-266). -/
def Route.remove (r : Route) (p : List Char) : TRes :=
  match splitRoute p with
  | none => .crash
  | some [] => .crash  -- unreachable
  | some (t0 :: rest) =>
    match remWalkF (walkFuel p) (some r) t0 rest with
    | .notfound => .out r false
    | .crash => .crash
    | .fuelout => .fuelout
    | .stop t => .out t true
    | .cont _ => .out emptyRoute true

/-! ## Matching (`Route.match`, part_004 lines 359-409)

`match` is a Lean keyword, hence `matchPath`.  The captured parameters
are appended to `acc` (the context's `c.Param`).  `crash` models the
index-out-of-range panic Go hits when the remaining path becomes empty
at a static lookup (`route.static[path[0]]`), or on an empty parameter
label (`route.param.name[0]`). -/

/-- The scan `i = 1; for ; i < len(path); i++` of lines 377-387:
least index `i ≥ 1` with `path[i] = '/'`, applied to `path.drop 1`
with running index starting at 1. -/
def scanSlash : List Char → Nat → Option Nat
  | [], _ => none
  | c :: rest, i => if c = '/' then some i else scanSlash rest (i + 1)

mutual

/-- The outer `Loop` of `Route.match`: match the node label as a
strict prefix (descending further) or as the entire remaining path
(returning the node). -/
def matchLoopF : Nat → Route → List Char → List (List Char) → MRes
  | 0, _, _, _ => .fuelout
  | fuel + 1, route, path, acc =>
    if route.name.length < path.length then
      if path.take route.name.length = route.name then
        matchParamF fuel route (path.drop route.name.length) acc
      else .out acc none
    else if path = route.name then .out acc (some route)
    else .out acc none

/-- The `ParamLoop` of `Route.match` (lines 372-397): a `:` child
captures up to the next `/` and loops; with no `/` left, or for a `*`
child, the whole remaining path is captured and the child returned;
with no parameter child, descend into the static slot of the next
byte. -/
def matchParamF : Nat → Route → List Char → List (List Char) → MRes
  | 0, _, _, _ => .fuelout
  | fuel + 1, route, path, acc =>
    match route.param with
    | some p =>
      match p.name with
      | [] => .crash  -- Go indexes route.param.name[0]
      | pc :: _ =>
        if pc = ':' then
          match scanSlash (path.drop 1) 1 with
          | some i => matchParamF fuel p (path.drop (i + 1)) (acc ++ [path.take i])
          | none => .out (acc ++ [path]) (some p)
        else .out (acc ++ [path]) (some p)
    | none =>
      match path with
      | [] => .crash  -- Go indexes path[0]
      | c :: _ =>
        match tblGet route.static c with
        | some child => matchLoopF fuel child path acc
        | none => .out acc none

end

/-- `Route.match` (part_004 lines 359-409): match a URL path, append
captures to the context's `Param` slice, return the final slice and
the resulting node. -/
def Route.matchPath (r : Route) (path : List Char)
    (acc : List (List Char)) : MRes :=
  matchLoopF (walkFuel path) r path acc

/-! ## Method dispatch (`MethodRouter.root`, router.go lines 275-304) -/

/-- `MethodRouter.root`: select the per-method tree from the first
byte of the method name, else from the second.  `none` models Go's
index-out-of-range panic (empty method, or a one-byte method whose
first byte matches nothing); `some none` is Go's nil (no tree).
Indices follow the `const` block: GET=0, HEAD=1, POST=2, PUT=3,
PATCH=4, DELETE=5, CONNECT=6, OPTIONS=7, TRACE=8. -/
def MethodRouter.root (method : List Char) : Option (Option Nat) :=
  match method with
  | [] => none
  | c1 :: rest =>
    if c1 = 'G' then some (some 0)
    else if c1 = 'H' then some (some 1)
    else if c1 = 'D' then some (some 5)
    else if c1 = 'C' then some (some 6)
    else if c1 = 'O' then some (some 7)
    else if c1 = 'T' then some (some 8)
    else
      match rest with
      | [] => none
      | c2 :: _ =>
        if c2 = 'O' then some (some 2)
        else if c2 = 'U' then some (some 3)
        else if c2 = 'A' then some (some 4)
        else some none

/-! ## Concrete scenarios

Each scenario tree is written as an explicit literal; a `_build`
theorem checks by evaluation that the registration calls produce
exactly that tree. -/

set_option maxRecDepth 8000

/-! ### The tree of §8 scenario 3: `"/3/:/5/:/*"` with handlers `[1, 2]` -/

/-- The `"*"` node of `tree35` — the terminal of the pattern. -/
def star35 : Route := ⟨[1, 2], "/3/:/5/:/*".data, "*".data, [], none⟩

/-- The second `":"` node of `tree35`. -/
def colon35b : Route := ⟨[], "/3/:/5/:".data, ":".data, [], some star35⟩

/-- The `"5/"` node of `tree35`. -/
def five35 : Route := ⟨[], "/3/:/5/".data, "5/".data, [], some colon35b⟩

/-- The first `":"` node of `tree35`. -/
def colon35a : Route := ⟨[], "/3/:".data, ":".data, [('5', five35)], none⟩

/-- The tree with `"/3/:/5/:/*"` registered under handlers `[1, 2]`. -/
def tree35 : Route := ⟨[], "/3/".data, "/3/".data, [], some colon35a⟩

theorem tree35_build :
    Route.add emptyRoute "/3/:/5/:/*".data [1, 2] = .out tree35 true := by rfl

example :
    Route.matchPath tree35 "/3/4/5/6/7/8".data [] =
    .out ["4".data, "6".data, "7/8".data] (some star35) := by rfl

example :
    Route.matchPath tree35 "/3/4/5/6".data [] =
    .out ["4".data, "6".data] (some colon35b) := by rfl

/-! ### `"/2/*"` (§8 scenario 2) -/

/-- The `"*"` terminal of `"/2/*"`, handlers `[3]`. -/
def star2 : Route := ⟨[3], "/2/*".data, "*".data, [], none⟩

/-- The tree with `"/2/*"` registered. -/
def tree2star : Route := ⟨[], "/2/".data, "/2/".data, [], some star2⟩

theorem tree2star_build :
    Route.add emptyRoute "/2/*".data [3] = .out tree2star true := by rfl

/-! ### `"/1/0"`, then the failing `"/1/:"` (§7 rollback scenario) -/

/-- The tree with only `"/1/0"` registered: one node. -/
def t10 : Route := ⟨[1], "/1/0".data, "/1/0".data, [], none⟩

theorem t10_build :
    Route.add emptyRoute "/1/0".data [1] = .out t10 true := by rfl

/-- The `"0"` child left by the split of `t10`. -/
def t10zero : Route := ⟨[1], "/1/0".data, "0".data, [], none⟩

/-- The tree left behind by the FAILED insertion of `"/1/:"` into
`t10`: the prefix split has already happened (root label `"/1/"`,
static child `"0"`) when the `":"` token is rejected, and it is not
rolled back. -/
def t10split : Route := ⟨[], "/1/".data, "/1/".data, [('0', t10zero)], none⟩

theorem t10split_build :
    Route.add t10 "/1/:".data [2] = .out t10split false := by rfl

/-! ### `"/b"` and `"/c"`: a split root with two static children -/

/-- The `"b"` child, handlers `[1]`. -/
def nodeB : Route := ⟨[1], "/b".data, "b".data, [], none⟩

/-- The `"c"` child, handlers `[2]`. -/
def nodeC : Route := ⟨[2], "/c".data, "c".data, [], none⟩

/-- The tree with `"/b"` and `"/c"` registered: root `"/"` with no
handlers and two static children. -/
def treeBC : Route :=
  ⟨[], "/".data, "/".data, [('b', nodeB), ('c', nodeC)], none⟩

/-- The tree with only `"/b"` registered. -/
def treeB : Route := ⟨[1], "/b".data, "/b".data, [], none⟩

theorem treeB_build :
    Route.add emptyRoute "/b".data [1] = .out treeB true := by rfl

theorem treeBC_build :
    Route.add treeB "/c".data [2] = .out treeBC true := by rfl

/-! ### `"/y"` and `"/z"`: same shape as `treeBC` -/

/-- The `"y"` child, handlers `[1]`. -/
def nodeY : Route := ⟨[1], "/y".data, "y".data, [], none⟩

/-- The `"z"` child, handlers `[2]`. -/
def nodeZ : Route := ⟨[2], "/z".data, "z".data, [], none⟩

/-- The tree with `"/y"` and `"/z"` registered. -/
def treeYZ : Route :=
  ⟨[], "/".data, "/".data, [('y', nodeY), ('z', nodeZ)], none⟩

/-- The tree with only `"/y"` registered. -/
def treeY : Route := ⟨[1], "/y".data, "/y".data, [], none⟩

theorem treeY_build :
    Route.add emptyRoute "/y".data [1] = .out treeY true := by rfl

theorem treeYZ_build :
    Route.add treeY "/z".data [2] = .out treeYZ true := by rfl

/-! ### `"/a/:/x"` and `"/a/:/y"`: two static children under a `":"` -/

/-- The `"x"` child, handlers `[1]`. -/
def nodeAX : Route := ⟨[1], "/a/:/x".data, "x".data, [], none⟩

/-- The `"y"` child, handlers `[2]`. -/
def nodeAY : Route := ⟨[2], "/a/:/y".data, "y".data, [], none⟩

/-- The `":"` node holding only `"x"` (after the first insertion). -/
def colonAX : Route := ⟨[], "/a/:".data, ":".data, [('x', nodeAX)], none⟩

/-- The tree with only `"/a/:/x"` registered. -/
def treeParX : Route := ⟨[], "/a/".data, "/a/".data, [], some colonAX⟩

/-- The `":"` node holding both children. -/
def colonA : Route :=
  ⟨[], "/a/:".data, ":".data, [('x', nodeAX), ('y', nodeAY)], none⟩

/-- The tree with `"/a/:/x"` and `"/a/:/y"` registered. -/
def treePar : Route := ⟨[], "/a/".data, "/a/".data, [], some colonA⟩

theorem treeParX_build :
    Route.add emptyRoute "/a/:/x".data [1] = .out treeParX true := by rfl

theorem treeParY_build :
    Route.add treeParX "/a/:/y".data [2] = .out treePar true := by rfl

/-! ### Behaviour of `remove`, `get` and erroneous `add` on the
scenario trees (each checked by evaluation) -/

example : Route.remove treeBC "/c".data = .crash := by rfl
example : Route.remove treeYZ "/z".data = .crash := by rfl
example : Route.remove treePar "/a/:/x".data = .out emptyRoute true := by rfl
example : Route.get emptyRoute "/a/:/y".data = .out none := by rfl
example : Route.get t10split "/1/0".data = .out (some t10zero) := by rfl
example : Route.add tree2star "/2/*/1".data [9] = .out tree2star false := by rfl
example : Route.add tree2star "/2/*/:".data [9] = .out tree2star false := by rfl
example : Route.add tree2star "/2/*/*".data [9] = .out tree2star false := by rfl

/-! # Claims

One theorem per reviewed claim; `_witness` theorems instantiate the
universally quantified ones at concrete inputs. -/

/-- C1: with `"/3/:/5/:/*"` registered under the non-empty handler
chain `[1, 2]`, matching `"/3/4/5/6/7/8"` returns that pattern's
terminal node (the `"*"` node carrying the chain) and the captured
parameter list is exactly `["4", "6", "7/8"]`: one entry per `:`
segment in left-to-right order, then the catch-all capture `"7/8"`
including its interior `/`. -/
theorem C1_match_params :
    Route.add emptyRoute "/3/:/5/:/*".data [1, 2] = .out tree35 true ∧
    Route.matchPath tree35 "/3/4/5/6/7/8".data [] =
      .out ["4".data, "6".data, "7/8".data] (some star35) ∧
    star35.Handle = [1, 2] ∧ star35.name = "*".data :=
  ⟨tree35_build, rfl, rfl, rfl⟩

/-- C3 counterexample: with `"/3/:/5/:/*"` registered (handlers at the
`"*"` node), matching `"/3/4/5/6"` does capture `["4", "6"]` but
returns the second `":"` node, whose handler list is EMPTY — not the
terminal node (non-empty handler list) the claim requires. -/
theorem C3_counterexample :
    Route.matchPath tree35 "/3/4/5/6".data [] =
      .out ["4".data, "6".data] (some colon35b) ∧
    colon35b.Handle = [] :=
  ⟨rfl, rfl⟩

/-- C3 amended: matching `"/3/4/5/6"` against `"/3/:/5/:/*"` captures
`["4", "6"]` and returns the second `":"` parameter node, whose
handler list is empty (so a served request falls through to the
not-found chain); no empty catch-all capture is appended and the
`"*"` node is not reached. -/
theorem C3_amended :
    Route.add emptyRoute "/3/:/5/:/*".data [1, 2] = .out tree35 true ∧
    Route.matchPath tree35 "/3/4/5/6".data [] =
      .out ["4".data, "6".data] (some colon35b) ∧
    colon35b.name = ":".data ∧ colon35b.Handle = [] :=
  ⟨tree35_build, rfl, rfl, rfl⟩

/-- C4: every attempt to insert past a catch-all node fails: each of
the three insertion steps returns the catch-all error (tree unchanged,
`false`) whenever the current node's label is `"*"`, whatever the
pending token, remaining tokens and handlers; concretely, after
`"/2/*"` is registered, inserting `"/2/*/1"`, `"/2/*/:"` or `"/2/*/*"`
fails and leaves the tree unchanged. -/
theorem C4_catchall_terminal :
    (∀ (fuel : Nat) (r : Route) (tok : List Char) (ts : List (List Char))
        (hs : List Nat), r.name = ['*'] →
        addStaticF (fuel + 1) r tok ts hs = .out r false ∧
        addSubParamF (fuel + 1) r tok ts hs = .out r false ∧
        addSubStaticF (fuel + 1) r tok ts hs = .out r false) ∧
    Route.add emptyRoute "/2/*".data [3] = .out tree2star true ∧
    Route.add tree2star "/2/*/1".data [9] = .out tree2star false ∧
    Route.add tree2star "/2/*/:".data [9] = .out tree2star false ∧
    Route.add tree2star "/2/*/*".data [9] = .out tree2star false := by
  refine ⟨?_, tree2star_build, rfl, rfl, rfl⟩
  intro fuel r tok ts hs h
  refine ⟨?_, ?_, ?_⟩ <;> simp [addStaticF, addSubParamF, addSubStaticF, h]

/-- Witness for C4's universal part, at the `"*"` node of `"/2/*"`. -/
theorem C4_witness :
    star2.name = ['*'] ∧
    addStaticF 1 star2 "1".data [] [9] = .out star2 false ∧
    addSubParamF 1 star2 ":".data [] [9] = .out star2 false ∧
    addSubStaticF 1 star2 "1".data [] [9] = .out star2 false :=
  ⟨rfl, (C4_catchall_terminal.1 0 star2 "1".data [] [9] rfl).1,
    (C4_catchall_terminal.1 0 star2 ":".data [] [9] rfl).2.1,
    (C4_catchall_terminal.1 0 star2 "1".data [] [9] rfl).2.2⟩

/-- C5 counterexample: insert `"/1/0"`, then let the insert of
`"/1/:"` fail (kind-exclusion).  The tree is NOT left in its pre-call
state: the root's label changed from `"/1/0"` to `"/1/"` — the
completed prefix split performed before the `":"` token was rejected
is observable afterwards. -/
theorem C5_counterexample :
    Route.add emptyRoute "/1/0".data [1] = .out t10 true ∧
    Route.add t10 "/1/:".data [2] = .out t10split false ∧
    t10split.name ≠ t10.name :=
  ⟨t10_build, t10split_build, by decide⟩

/-- C5 amended: a failing insert propagates its first error and stops,
but mutations made for earlier tokens of the same call persist: after
`"/1/0"` is registered and `"/1/:"` fails, the root's label is `"/1/"`
with the sole static child `"0"` carrying the original handlers, and
the previously registered `"/1/0"` is still found with handlers
`[1]`. -/
theorem C5_amended :
    Route.add emptyRoute "/1/0".data [1] = .out t10 true ∧
    Route.add t10 "/1/:".data [2] = .out t10split false ∧
    t10split.name = "/1/".data ∧
    tblGet t10split.static '0' = some t10zero ∧
    t10zero.Handle = [1] ∧
    Route.get t10split "/1/0".data = .out (some t10zero) :=
  ⟨t10_build, t10split_build, rfl, rfl, rfl, rfl⟩

/-- C2: the post-remove compaction crashes instead of merging.  With
`"/b"` and `"/c"` registered (root `"/"`: no handlers, two static
children), removing `"/c"` reaches the merge branch, which reads
`route.static[static[0]]` on the DETACHED `"c"` node — nil — instead
of the parent's surviving `"b"` child, and dereferences it: Go
panics, no re-compacted tree exists, and `"/b"` is not preserved. -/
theorem C2_remove_merge_crash :
    Route.add emptyRoute "/b".data [1] = .out treeB true ∧
    Route.add treeB "/c".data [2] = .out treeBC true ∧
    Route.remove treeBC "/c".data = .crash :=
  ⟨treeB_build, treeBC_build, rfl⟩

/-- C6: with `"/a/:/x"` and `"/a/:/y"` registered, removing
`"/a/:/x"` succeeds but the climb passes the handler-less `":"` parent
without checking its remaining children (the child count is guarded by
`parent.name != ":"`), detaches the whole branch and resets the root;
the never-removed `"/a/:/y"` is then no longer found. -/
theorem C6_remove_drops_sibling :
    Route.add emptyRoute "/a/:/x".data [1] = .out treeParX true ∧
    Route.add treeParX "/a/:/y".data [2] = .out treePar true ∧
    Route.remove treePar "/a/:/x".data = .out emptyRoute true ∧
    Route.get emptyRoute "/a/:/y".data = .out none :=
  ⟨treeParX_build, treeParY_build, rfl, rfl⟩

/-- C7: with `"/y"` and `"/z"` registered, removing the registered
pattern `"/z"` does not return true: the climb reaches the merge
branch and panics on the nil `route.static[static[0]]` of the detached
`"z"` node (same defect as C2), so `Remove` crashes instead of
returning `true` and no subsequent `Find` can run. -/
theorem C7_remove_crash :
    Route.add emptyRoute "/y".data [1] = .out treeY true ∧
    Route.add treeY "/z".data [2] = .out treeYZ true ∧
    Route.remove treeYZ "/z".data = .crash :=
  ⟨treeY_build, treeYZ_build, rfl⟩

/-- C8 counterexample: `"GX"` is not one of the nine methods, yet the
dispatcher selects the GET tree for it (the decision reads only the
first byte), contradicting "for every other method string it yields no
tree". -/
theorem C8_counterexample :
    MethodRouter.root "GX".data = some (some 0) ∧
    MethodRouter.root "GET".data = some (some 0) :=
  ⟨by decide, by decide⟩

/-- C8 amended: the nine methods map to their trees through the first
byte (G, H, D, C, O, T) or, failing that, the second byte (O → POST,
U → PUT, A → PATCH); any string sharing those distinguishing bytes
selects the same tree (e.g. `"GX"` → GET); a string of length ≥ 2
matching none of them yields no tree (so registration fails and a
served request falls to the not-found chain); the empty string and
unmatched one-byte strings make the dispatcher panic on `method[1]`. -/
theorem C8_method_table :
    (MethodRouter.root "GET".data = some (some 0) ∧
     MethodRouter.root "HEAD".data = some (some 1) ∧
     MethodRouter.root "POST".data = some (some 2) ∧
     MethodRouter.root "PUT".data = some (some 3) ∧
     MethodRouter.root "PATCH".data = some (some 4) ∧
     MethodRouter.root "DELETE".data = some (some 5) ∧
     MethodRouter.root "CONNECT".data = some (some 6) ∧
     MethodRouter.root "OPTIONS".data = some (some 7) ∧
     MethodRouter.root "TRACE".data = some (some 8)) ∧
    (∀ (c1 c2 : Char) (rest : List Char),
        c1 ≠ 'G' → c1 ≠ 'H' → c1 ≠ 'D' → c1 ≠ 'C' → c1 ≠ 'O' → c1 ≠ 'T' →
        c2 ≠ 'O' → c2 ≠ 'U' → c2 ≠ 'A' →
        MethodRouter.root (c1 :: c2 :: rest) = some none) ∧
    MethodRouter.root "GX".data = some (some 0) ∧
    MethodRouter.root "".data = none ∧
    MethodRouter.root "X".data = none := by
  refine ⟨by decide, ?_, by decide, by decide, by decide⟩
  intro c1 c2 rest g1 g2 g3 g4 g5 g6 o1 o2 o3
  simp [MethodRouter.root, g1, g2, g3, g4, g5, g6, o1, o2, o3]

/-- Witness for C8's universal part, at the method string `"XY"`. -/
theorem C8_witness :
    MethodRouter.root "XY".data = some none :=
  C8_method_table.2.1 'X' 'Y' [] (by decide) (by decide) (by decide)
    (by decide) (by decide) (by decide) (by decide) (by decide) (by decide)

/-! ## Boundary shape of the splitter tokens

`splitRoute` alternates static runs and the one-byte markers `":"`
and `"*"`.  The rules proved below: the first token begins with `'/'`
and a static run immediately followed by a marker ends with `'/'`.
(The converse rule — a static run immediately after a marker begins
with `'/'` — is false; `splitRoute "/:/a"` is a counterexample.) -/

/-- A splitter token is a marker when it is the parameter token `":"`
or the catch-all token `"*"`. -/
def isMark (t : List Char) : Prop := t = [':'] ∨ t = ['*']

instance (t : List Char) : Decidable (isMark t) :=
  inferInstanceAs (Decidable (t = [':'] ∨ t = ['*']))

/-- Boundary rule between two adjacent splitter tokens: a static run
immediately followed by a marker ends with `'/'`. -/
def ruleTwo (a b : List Char) : Prop :=
  isMark b → ¬ isMark a → a.getLast? = some '/'

instance (a b : List Char) : Decidable (ruleTwo a b) :=
  inferInstanceAs (Decidable (isMark b → ¬ isMark a → a.getLast? = some '/'))

/-- A token ending in `'/'` is not a marker. -/
theorem slash_not_isMark {a : List Char} (h : a.getLast? = some '/') :
    ¬ isMark a := by
  intro hm
  rcases hm with h' | h' <;> subst h' <;> exact absurd h (by decide)

/-- The one-byte token made from `':'` or `'*'` is a marker. -/
theorem isMark_single {c : Char} (h : c = ':' ∨ c = '*') :
    isMark [c] := by
  rcases h with h' | h' <;> subst h'
  · exact Or.inl rfl
  · exact Or.inr rfl

/-- Appending one token on the right preserves the boundary chain when
the new last pair satisfies the rule. -/
theorem chain_snoc {l : List (List Char)} {b : List Char}
    (hl : List.Chain' ruleTwo l)
    (hb : ∀ a, l.getLast? = some a → ruleTwo a b) :
    List.Chain' ruleTwo (l ++ [b]) := by
  rw [List.chain'_append]
  refine ⟨hl, List.chain'_singleton b, ?_⟩
  intro x hx y hy
  have hyb : b = y := by simpa using hy
  subst hyb
  exact hb x (by simpa using hx)

/-- One `splitLoop` step on a marker token while a static run is open:
the run gains its closing `'/'` and is flushed before the marker. -/
theorem splitLoop_mark_true (rest : List (List Char))
    (acc : List (List Char)) (static : List Char) (c : Char)
    (ct : List Char) (hm : c = ':' ∨ c = '*') :
    splitLoop ((c :: ct) :: rest) acc static true =
      splitLoop rest ((acc ++ [static ++ ['/']]) ++ [[c]]) [] false := by
  simp [splitLoop, hm]

/-- One `splitLoop` step on a marker token right after a marker: the
pending run is empty and only the marker is appended. -/
theorem splitLoop_mark_false (rest : List (List Char))
    (acc : List (List Char)) (c : Char) (ct : List Char)
    (hm : c = ':' ∨ c = '*') :
    splitLoop ((c :: ct) :: rest) acc [] false =
      splitLoop rest (acc ++ [[c]]) [] false := by
  simp [splitLoop, hm]

/-- One `splitLoop` step on a static part while a static run is open:
the part is appended to the run after a `'/'` separator. -/
theorem splitLoop_static_true (rest : List (List Char))
    (acc : List (List Char)) (static : List Char) (c : Char)
    (ct : List Char) (hm : ¬(c = ':' ∨ c = '*')) :
    splitLoop ((c :: ct) :: rest) acc static true =
      splitLoop rest acc (static ++ ['/'] ++ (c :: ct)) true := by
  simp [splitLoop, hm]

/-- One `splitLoop` step on a static part right after a marker: the
part starts a new run with no `'/'` separator (the source of the
failure of the claim's third rule). -/
theorem splitLoop_static_false (rest : List (List Char))
    (acc : List (List Char)) (c : Char) (ct : List Char)
    (hm : ¬(c = ':' ∨ c = '*')) :
    splitLoop ((c :: ct) :: rest) acc [] false =
      splitLoop rest acc (c :: ct) true := by
  simp [splitLoop, hm]

/-- Invariant induction over `splitLoop`: if the accumulated tokens
satisfy the boundary rules, so do the tokens it returns.  The
invariants: `acc` satisfies rule 2 pairwise; when `isStat` is off the
pending run is empty and `acc` ends with a marker; a first pending
run starts with `'/'`; the first accumulated token starts with `'/'`;
a pending run never starts with a marker byte. -/
theorem splitLoop_rules (parts : List (List Char)) :
    ∀ (acc : List (List Char)) (static : List Char) (isStat : Bool)
      (toks : List (List Char)),
      splitLoop parts acc static isStat = some toks →
      List.Chain' ruleTwo acc →
      (isStat = false → static = [] ∧
        ∃ m, acc.getLast? = some m ∧ isMark m) →
      (acc = [] → static ≠ [] → static.head? = some '/') →
      (∀ t, acc.head? = some t → t.head? = some '/') →
      (∀ c, static.head? = some c → ¬(c = ':' ∨ c = '*')) →
      List.Chain' ruleTwo toks ∧
        ∀ t, toks.head? = some t → t.head? = some '/' := by
  induction parts with
  | nil =>
    intro acc static isStat toks h h1 h2 h3 h4 h5
    by_cases hs : static = []
    · subst hs
      simp [splitLoop] at h
      subst h
      exact ⟨h1, h4⟩
    · simp [splitLoop, hs] at h
      subst h
      constructor
      · refine chain_snoc h1 ?_
        intro a ha hmb hna
        exfalso
        rcases hmb with h' | h' <;> subst h'
        · exact h5 ':' rfl (Or.inl rfl)
        · exact h5 '*' rfl (Or.inr rfl)
      · intro t ht
        rcases acc with _ | ⟨a0, arest⟩
        · have hsl := h3 rfl hs
          simp only [List.nil_append, List.head?_cons, Option.some.injEq] at ht
          subst ht
          exact hsl
        · simp only [List.cons_append, List.head?_cons, Option.some.injEq] at ht
          subst ht
          exact h4 _ rfl
  | cons part rest ih =>
    intro acc static isStat toks h h1 h2 h3 h4 h5
    rcases part with _ | ⟨c, ct⟩
    · simp [splitLoop] at h
    · by_cases hm : c = ':' ∨ c = '*'
      · cases isStat with
        | true =>
          rw [splitLoop_mark_true rest acc static c ct hm] at h
          have hlast : (static ++ ['/']).getLast? = some '/' :=
            List.getLast?_concat _
          refine ih _ _ _ _ h ?_ ?_ ?_ ?_ ?_
          · refine chain_snoc ?_ ?_
            · refine chain_snoc h1 ?_
              intro a ha hmb hna
              exact absurd hmb (slash_not_isMark hlast)
            · intro a ha hmb hna
              rw [List.getLast?_concat] at ha
              injection ha with ha
              subst ha
              exact hlast
          · intro _
            exact ⟨rfl, [c], List.getLast?_concat _, isMark_single hm⟩
          · intro hx
            simp at hx
          · intro t ht
            rcases acc with _ | ⟨a0, arest⟩
            · simp only [List.nil_append, List.cons_append, List.head?_cons,
                Option.some.injEq] at ht
              subst ht
              rcases static with _ | ⟨s0, srest⟩
              · simp
              · have hsl := h3 rfl (List.cons_ne_nil s0 srest)
                simpa using hsl
            · simp only [List.cons_append, List.head?_cons,
                Option.some.injEq] at ht
              subst ht
              exact h4 _ rfl
          · intro c' hc'
            simp at hc'
        | false =>
          obtain ⟨hs0, m, hml, hmm⟩ := h2 rfl
          subst hs0
          rw [splitLoop_mark_false rest acc c ct hm] at h
          refine ih _ _ _ _ h ?_ ?_ ?_ ?_ ?_
          · refine chain_snoc h1 ?_
            intro a ha hmb hna
            rw [hml] at ha
            injection ha with ha
            subst ha
            exact absurd hmm hna
          · intro _
            exact ⟨rfl, [c], List.getLast?_concat _, isMark_single hm⟩
          · intro hx
            simp at hx
          · intro t ht
            rcases acc with _ | ⟨a0, arest⟩
            · simp at hml
            · simp only [List.cons_append, List.head?_cons,
                Option.some.injEq] at ht
              subst ht
              exact h4 _ rfl
          · intro c' hc'
            simp at hc'
      · cases isStat with
        | true =>
          rw [splitLoop_static_true rest acc static c ct hm] at h
          refine ih _ _ _ _ h h1 ?_ ?_ h4 ?_
          · intro hf
            exact Bool.noConfusion hf
          · intro hacc _
            rcases static with _ | ⟨s0, srest⟩
            · simp
            · have hsl := h3 hacc (List.cons_ne_nil s0 srest)
              simpa using hsl
          · intro c' hc'
            rcases static with _ | ⟨s0, srest⟩
            · simp at hc'
              subst hc'
              decide
            · simp only [List.cons_append, List.head?_cons,
                Option.some.injEq] at hc'
              subst hc'
              exact h5 _ rfl
        | false =>
          obtain ⟨hs0, m, hml, hmm⟩ := h2 rfl
          subst hs0
          rw [splitLoop_static_false rest acc c ct hm] at h
          refine ih _ _ _ _ h h1 ?_ ?_ h4 ?_
          · intro hf
            exact Bool.noConfusion hf
          · intro hacc _
            rw [hacc] at hml
            simp at hml
          · intro c' hc'
            simp only [List.head?_cons, Option.some.injEq] at hc'
            subst hc'
            exact hm

/-- C9 counterexample: on the pattern `"/:/a"` the splitter returns
`["/", ":", "a"]`; the static token `"a"` immediately follows the
marker `":"` yet does not begin with `'/'`, refuting rule 3 of the
claim (and the comment above `splitRoute` in the source, which shows
`"/users/:/status"` splitting into a third token `"/status"`). -/
theorem C9_counterexample :
    splitRoute "/:/a".data = some [['/'], [':'], ['a']] ∧
    ¬ (['a'].head? = some '/') :=
  ⟨by decide, by decide⟩

/-- C9 (amended): every token list returned by `splitRoute` satisfies
boundary rules 1 and 2 — the first token begins with `'/'`, and a
static token immediately followed by a `":"` or `"*"` token ends with
`'/'`.  Rule 3 of the claim (a static token immediately after a
marker begins with `'/'`) is dropped: it is false. -/
theorem C9_amended (p : List Char) (toks : List (List Char))
    (h : splitRoute p = some toks) :
    (∀ t, toks.head? = some t → t.head? = some '/') ∧
    List.Chain' ruleTwo toks := by
  simp only [splitRoute] at h
  by_cases hq : cleanPath p = [] ∨ cleanPath p = ['/']
  · rw [if_pos hq] at h
    injection h with h
    subst h
    refine ⟨?_, List.chain'_singleton _⟩
    intro t ht
    simp only [List.head?_cons, Option.some.injEq] at ht
    subst ht
    rfl
  · rw [if_neg hq] at h
    have hmain := splitLoop_rules _ [] [] true toks h List.chain'_nil
      (fun hf => Bool.noConfusion hf)
      (fun _ hne => absurd rfl hne)
      (fun t ht => by simp at ht)
      (fun c hc => by simp at hc)
    exact ⟨hmain.2, hmain.1⟩

/-- C9 witness: the amended boundary rules evaluated on the pattern
`"/u/:/v/*"`. -/
theorem C9_witness :
    splitRoute "/u/:/v/*".data =
      some [['/', 'u', '/'], [':'], ['v', '/'], ['*']] ∧
    ((∀ t, ([['/', 'u', '/'], [':'], ['v', '/'], ['*']] :
        List (List Char)).head? = some t → t.head? = some '/') ∧
      List.Chain' ruleTwo [['/', 'u', '/'], [':'], ['v', '/'], ['*']]) :=
  ⟨by decide, C9_amended "/u/:/v/*".data _ (by decide)⟩

/-- The captures appended by one match walk depend only on the tree
and the path: the incoming `Param` slice is carried through as a
prefix and never read.  Proved for `matchParamF` and `matchLoopF`
simultaneously by induction on the fuel. -/
theorem match_append (fuel : Nat) :
    ∀ (route : Route) (path : List Char) (acc : List (List Char)),
      (matchParamF fuel route path acc =
        (match matchParamF fuel route path [] with
         | .out ps n => .out (acc ++ ps) n
         | e => e)) ∧
      (matchLoopF fuel route path acc =
        (match matchLoopF fuel route path [] with
         | .out ps n => .out (acc ++ ps) n
         | e => e)) := by
  induction fuel with
  | zero => intro route path acc; exact ⟨rfl, rfl⟩
  | succ fuel ih =>
    intro route path acc
    constructor
    · rcases hq : route.param with _ | p
      · rcases path with _ | ⟨c, cs⟩
        · simp [matchParamF, hq]
        · rcases hc : tblGet route.static c with _ | child
          · simp [matchParamF, hq, hc]
          · simp only [matchParamF, hq, hc]
            exact (ih child (c :: cs) acc).2
      · rcases hn : p.name with _ | ⟨pc, pcs⟩
        · simp [matchParamF, hq, hn]
        · by_cases hpc : pc = ':'
          · rcases hscan : scanSlash (path.drop 1) 1 with _ | i
            · simp only [matchParamF, hq, hn, hpc, hscan, if_pos]
              simp
            · simp only [matchParamF, hq, hn, hpc, hscan, if_pos]
              rw [(ih p (path.drop (i + 1)) (acc ++ [path.take i])).1,
                (ih p (path.drop (i + 1)) ([] ++ [path.take i])).1]
              cases matchParamF fuel p (path.drop (i + 1)) [] <;> simp
          · simp [matchParamF, hq, hn, hpc]
    · by_cases h1 : route.name.length < path.length
      · by_cases h2 : path.take route.name.length = route.name
        · simp only [matchLoopF, h1, h2, if_pos, if_true]
          exact (ih route (path.drop route.name.length) acc).1
        · simp [matchLoopF, h1, h2]
      · by_cases h3 : path = route.name
        · simp [matchLoopF, h1, h3]
        · simp [matchLoopF, h1, h3]

/-- C10: matching is read-only and pure.  The embedding of
`Route.match` is a function of the tree and the URL path alone: the
tree is not part of its output (no node is modified), and the only
effect on the context is appending captures to its `Param` slice —
the result on any incoming slice `acc` is obtained from the run on the
empty slice by prefixing `acc`, so two runs on the same tree and path
return the same node and append identical captures. -/
theorem C10_match_pure (r : Route) (path : List Char)
    (acc : List (List Char)) :
    Route.matchPath r path acc =
      (match Route.matchPath r path [] with
       | .out ps n => .out (acc ++ ps) n
       | e => e) :=
  (match_append (walkFuel path) r path acc).2

end HttpRouter